import Mathlib

/-!
Shallow embedding of the app/permission/sandbox/scripting subsystem of the
PIXFW T-Embed CC1101 firmware, and proofs of the specification's testable
properties against it.

Conventions:
* ESP-IDF error codes become the inductive `EspErr`; fallible C functions
  return `Except EspErr _` (pure result) or `EspErr × _` (result plus the
  mutated state, when the source mutates state even on failure paths).
* C strings are Lean `String`s; a nullable `const char *` parameter becomes
  `Option String` when the source checks it for NULL.
* u32 arithmetic is `Nat` with explicit masking where the source relies on
  32-bit wrap (`hex8`, the `~` complement in `app_permissions_revoke`).
* Character scanning (`strtok`, trimming, the mJS parser, manifest parsing)
  is done on `List Char`, mirroring the C pointer walks.
-/

/-- The ESP-IDF error codes actually returned by the embedded functions. -/
inductive EspErr where
  | espOk
  | espFail
  | invalidArg
  | noMem
  | notFound
  | invalidSize
  | invalidState
  deriving DecidableEq, Repr

/-! ## Permission bits (app_manager.h) -/

def APP_PERM_RF_RECEIVE : Nat := 1 <<< 0
def APP_PERM_RF_TRANSMIT : Nat := 1 <<< 1
def APP_PERM_GPIO_READ : Nat := 1 <<< 2
def APP_PERM_GPIO_WRITE : Nat := 1 <<< 3
def APP_PERM_STORAGE_READ : Nat := 1 <<< 4
def APP_PERM_STORAGE_WRITE : Nat := 1 <<< 5
def APP_PERM_UI_CREATE : Nat := 1 <<< 6
def APP_PERM_NETWORK : Nat := 1 <<< 7
def APP_PERM_SYSTEM : Nat := 1 <<< 8

def MAX_INSTALLED_APPS : Nat := 16
def MAX_SANDBOXES : Nat := 8
def DEFAULT_MEMORY_LIMIT : Nat := 65536
def DEFAULT_EXEC_TIME_LIMIT : Nat := 5000
def UINT32_MASK : Nat := 2 ^ 32 - 1

/-- The permission-name table of app_permissions.c (`permission_map`). -/
def permission_map : List (String × Nat) :=
  [("rf.receive", APP_PERM_RF_RECEIVE),
   ("rf.transmit", APP_PERM_RF_TRANSMIT),
   ("gpio.read", APP_PERM_GPIO_READ),
   ("gpio.write", APP_PERM_GPIO_WRITE),
   ("storage.read", APP_PERM_STORAGE_READ),
   ("storage.write", APP_PERM_STORAGE_WRITE),
   ("ui.create", APP_PERM_UI_CREATE),
   ("network", APP_PERM_NETWORK),
   ("system", APP_PERM_SYSTEM)]

/-! ## NVS model

The NVS namespace `"app_perms"` holds one u32 per app id.  It is modelled as
an association list where the most recent write shadows older entries;
`nvs_open`/`nvs_commit` failures (hardware faults) are not modelled — in the
source those branches only produce a default value (load) or propagate an
error code without touching the store. -/

abbrev Nvs := List (String × Nat)

def nvsGet (nvs : Nvs) (key : String) : Option Nat :=
  (nvs.find? (fun e => e.1 == key)).map (fun e => e.2)

/-- `nvs_set_u32` followed by `nvs_commit`: overwrite-or-create the key. -/
def nvsSet (nvs : Nvs) (key : String) (v : Nat) : Nvs :=
  (key, v) :: nvs

/-- `app_permissions_load`: NULL-argument check, then NVS read; a missing
record yields permissions 0 with ESP_OK ("Default to no permissions").
The u32 out-parameter is the `Except` payload — the source writes it exactly
on the paths that return ESP_OK (the NULL check on the out pointer is folded
into the `Option` on the app id). -/
def app_permissions_load (app_id : Option String) (nvs : Nvs) : Except EspErr Nat :=
  match app_id with
  | none => .error .invalidArg
  | some id =>
    match nvsGet nvs id with
    | none => .ok 0
    | some v => .ok v

/-- `app_permissions_save`: NULL check, then write-and-commit. -/
def app_permissions_save (app_id : Option String) (permissions : Nat) (nvs : Nvs) :
    Except EspErr Nvs :=
  match app_id with
  | none => .error .invalidArg
  | some id => .ok (nvsSet nvs id permissions)

/-- Characters stripped by the leading-whitespace loop of
`app_permissions_parse_string` (only space and tab). -/
def isLeadWsChar (c : Char) : Bool := [' ', '\t'].contains c

/-- Characters stripped by the trailing-whitespace loop (space, tab, newline,
carriage return). -/
def isTrailWsChar (c : Char) : Bool := [' ', '\t', '\n', '\r'].contains c

/-- The trailing strip loop runs while `end > token`, so it can erase every
character except the first one. -/
def trimTrailing (cs : List Char) : List Char :=
  match cs with
  | [] => []
  | c :: rest => c :: (rest.reverse.dropWhile isTrailWsChar).reverse

/-- Whitespace trimming applied to each `strtok` token. -/
def trimToken (cs : List Char) : List Char :=
  trimTrailing (cs.dropWhile isLeadWsChar)

/-- Split on a separator character, keeping empty pieces (the helper under
`strtokCommas`). -/
def splitOnChar (sep : Char) : List Char → List (List Char)
  | [] => [[]]
  | c :: rest =>
    let r := splitOnChar sep rest
    if c == sep then [] :: r
    else
      match r with
      | h :: t => (c :: h) :: t
      | [] => [[c]]

/-- `strtok(str, ",")` iteration: the maximal non-empty substrings between
commas. -/
def strtokCommas (cs : List Char) : List (List Char) :=
  (splitOnChar ',' cs).filter (fun t => !t.isEmpty)

/-- The inner matching loop of `app_permissions_parse_string`: the flag of the
first table entry whose name equals the token, else no bit. -/
def lookupFlag : List (String × Nat) → List Char → Nat
  | [], _ => 0
  | (name, flag) :: rest, tok =>
    if tok == name.toList then flag else lookupFlag rest tok

/-- `app_permissions_parse_string`: tokenize on commas, trim each token, OR
together the flags of recognized names; NULL input (and the unmodelled
`strdup` failure, which also yields 0) parses to 0. -/
def app_permissions_parse_string (permissions_str : Option String) : Nat :=
  match permissions_str with
  | none => 0
  | some s =>
    (strtokCommas s.toList).foldl
      (fun acc tok => acc ||| lookupFlag permission_map (trimToken tok)) 0

/-- The accumulation loop of `app_permissions_to_string`: append the name of
every set bit in table order, with a comma before every name but the first. -/
def to_string_loop : List (String × Nat) → Nat → String → Bool → String
  | [], _, acc, _ => acc
  | (name, flag) :: rest, permissions, acc, first =>
    if (permissions &&& flag) != 0 then
      to_string_loop rest permissions (acc ++ (if first then "" else ",") ++ name) false
    else
      to_string_loop rest permissions acc first

/-- `app_permissions_to_string`. -/
def app_permissions_to_string (permissions : Nat) : String :=
  to_string_loop permission_map permissions "" true

/-- `app_permissions_check`: false on NULL id or load failure, else true iff
the loaded bitset intersects the required bits (`!= 0`, i.e. ANY bit). -/
def app_permissions_check (app_id : Option String) (required_permission : Nat)
    (nvs : Nvs) : Bool :=
  match app_id with
  | none => false
  | some _ =>
    match app_permissions_load app_id nvs with
    | .error _ => false
    | .ok app_permissions => (app_permissions &&& required_permission) != 0

/-- `app_permissions_grant`: read-modify-write OR; on a load failure the
source logs and continues from zero permissions. -/
def app_permissions_grant (app_id : Option String) (permission : Nat) (nvs : Nvs) :
    Except EspErr Nvs :=
  match app_id with
  | none => .error .invalidArg
  | some _ =>
    let current :=
      match app_permissions_load app_id nvs with
      | .error _ => 0
      | .ok v => v
    app_permissions_save app_id (current ||| permission) nvs

/-- `app_permissions_revoke`: read-modify-write AND-NOT (u32 complement); a
load failure is propagated. -/
def app_permissions_revoke (app_id : Option String) (permission : Nat) (nvs : Nvs) :
    Except EspErr Nvs :=
  match app_id with
  | none => .error .invalidArg
  | some _ =>
    match app_permissions_load app_id nvs with
    | .error e => .error e
    | .ok current =>
      app_permissions_save app_id (current &&& (UINT32_MASK ^^^ permission)) nvs

/-! ## mJS core (mjs.c)

`mjs_val_t` is a 64-bit NaN-boxed word in the source; the embedding keeps the
tag structure as an inductive.  Number payloads are kept as the source text of
the literal (`strtod`'s double result is never inspected by any claim, and
IEEE doubles are outside the embedding); string payloads keep their character
content (the source packs a pointer into the value word). -/

inductive MjsVal where
  | vNull
  | vUndefined
  | vTrue
  | vFalse
  | number (text : String)
  | str (s : String)
  | ffiFunc (name : String)
  deriving DecidableEq, Repr

def MJS_NULL : MjsVal := .vNull
def MJS_UNDEFINED : MjsVal := .vUndefined
def MJS_TRUE : MjsVal := .vTrue
def MJS_FALSE : MjsVal := .vFalse

/-- `struct mjs`: error message and the fixed-capacity (32-entry) global
table.  `global_count` is the list length. -/
structure Mjs where
  error_msg : Option String
  globals : List (String × MjsVal)
  deriving DecidableEq, Repr

def mjs_create : Mjs := { error_msg := none, globals := [] }

/-- `set_error`: records the message.  The registered error handler
(`mjs_error_handler` in mjs_engine.c) additionally clears the owning
context's running flag and fires the global error callback; the flag is
cleared again unconditionally when `mjs_engine_execute` returns, and the
callback has no further observable effect in the embedded state, so neither
is modelled here. -/
def set_error (m : Mjs) (msg : String) : Mjs := { m with error_msg := some msg }

/-- `mjs_set_global`: overwrite the first entry with the same name, else
append if fewer than 32 globals, else silently drop.  (Names are unique by
construction, so first-entry overwrite and all-entry overwrite coincide.) -/
def mjs_set_global (m : Mjs) (name : String) (v : MjsVal) : Mjs :=
  if m.globals.any (fun e => e.1 == name) then
    { m with globals := m.globals.map (fun e => if e.1 == name then (e.1, v) else e) }
  else if m.globals.length < 32 then
    { m with globals := m.globals ++ [(name, v)] }
  else m

def mjs_get_global (m : Mjs) (name : String) : MjsVal :=
  match m.globals.find? (fun e => e.1 == name) with
  | some e => e.2
  | none => MJS_UNDEFINED

/-- `mjs_set_ffi_func`: binds a name to a native function through the same
global table.  Function-pointer identity is modelled by the registered
name. -/
def mjs_set_ffi_func (m : Mjs) (name : String) : Mjs :=
  mjs_set_global m name (.ffiFunc name)

/-- `mjs_is_error` — the source reads `val == MJS_NULL && false`. -/
def mjs_is_error (v : MjsVal) : Bool := (v == MJS_NULL) && false

/-- C `isspace`. -/
def isCSpace (c : Char) : Bool :=
  [' ', '\t', '\n', '\x0b', '\x0c', '\r'].contains c

/-- C `isdigit`. -/
def isCDigit (c : Char) : Bool := '0' ≤ c && c ≤ '9'

/-- C `isalnum` (ASCII). -/
def isCAlnum (c : Char) : Bool :=
  isCDigit c || ('a' ≤ c && c ≤ 'z') || ('A' ≤ c && c ≤ 'Z')

/-- The identifier characters accepted by the mjs.c scanners
(`isalnum(*p) || *p == '_'`). -/
def isIdentChar (c : Char) : Bool := isCAlnum c || c == '_'

/-- `eval_expression` (mjs.c): whitespace skip, then number / quoted string /
keyword-prefix / global-variable lookup, with `set_error` on an unterminated
string or an empty identifier.  (The 64-byte name buffer is not bounded here;
the source `strncpy` would overflow rather than truncate past it.) -/
def eval_expression (m : Mjs) (expr : List Char) : Mjs × MjsVal :=
  let cs := expr.dropWhile isCSpace
  match cs with
  | [] => (set_error m "Syntax error", MJS_NULL)
  | c :: rest =>
    if isCDigit c || c == '-' then
      (m, .number (String.mk cs))
    else if c == '"' || c == '\'' then
      let content := rest.takeWhile (fun x => x != c)
      let remaining := rest.dropWhile (fun x => x != c)
      if remaining.isEmpty then (set_error m "Unterminated string", MJS_NULL)
      else (m, .str (String.mk content))
    else if ("true".toList).isPrefixOf cs then (m, MJS_TRUE)
    else if ("false".toList).isPrefixOf cs then (m, MJS_FALSE)
    else if ("null".toList).isPrefixOf cs then (m, MJS_NULL)
    else if ("undefined".toList).isPrefixOf cs then (m, MJS_UNDEFINED)
    else
      let name := cs.takeWhile isIdentChar
      if name.length > 0 then (m, mjs_get_global m (String.mk name))
      else (set_error m "Syntax error", MJS_NULL)

/-- `strstr(haystack, needle) != NULL`: the needle occurs as a contiguous
substring. -/
def strstrContains (needle : List Char) : List Char → Bool
  | [] => needle.isEmpty
  | c :: rest => needle.isPrefixOf (c :: rest) || strstrContains needle rest

/-- `mjs_exec` (mjs.c): the three top-level forms — a `console.log` line
(argument between the first `(` and the first `)` is evaluated and printed;
stdout is not part of the state), a `var`/`let`/`const` declaration (keyword
stripped only when it starts the string), or a bare expression.  Returns the
final interpreter state and the result value. -/
def mjs_exec (m : Mjs) (code : String) : Mjs × MjsVal :=
  let cs := code.toList
  if strstrContains ("console.log".toList) cs then
    let m1 :=
      match cs.findIdx? (fun c => c == '('), cs.findIdx? (fun c => c == ')') with
      | some i, some j =>
        if i < j then
          let arg := (cs.drop (i + 1)).take (j - (i + 1))
          if arg.length < 255 then (eval_expression m arg).1 else m
        else m
      | _, _ => m
    (m1, MJS_UNDEFINED)
  else if strstrContains ("var ".toList) cs || strstrContains ("let ".toList) cs
      || strstrContains ("const ".toList) cs then
    let afterKw :=
      if ("var ".toList).isPrefixOf cs then cs.drop 4
      else if ("let ".toList).isPrefixOf cs then cs.drop 4
      else if ("const ".toList).isPrefixOf cs then cs.drop 6
      else cs
    let afterWs := afterKw.dropWhile isCSpace
    let name := afterWs.takeWhile isIdentChar
    let afterName := afterWs.dropWhile isIdentChar
    let m1 :=
      if name.length > 0 then
        match afterName.dropWhile isCSpace with
        | '=' :: afterEq =>
          let rhs := afterEq.dropWhile isCSpace
          let exprChars := rhs.takeWhile (fun c => c != ';')
          if exprChars.length < 255 then
            let r := eval_expression m exprChars
            mjs_set_global r.1 (String.mk name) r.2
          else m
        | _ => m
      else m
    (m1, MJS_UNDEFINED)
  else
    eval_expression m cs

/-! ## Engine layer (mjs_engine.c) -/

/-- `js_context_t`.  The `mjs` and `code`/`filename` pointers are `Option`s
(NULL is `none`); `user_data` is never read by the embedded functions. -/
structure JsContext where
  mjs : Option Mjs
  filename : Option String
  code : Option String
  is_running : Bool
  memory_limit : Nat
  execution_time_limit_ms : Nat
  deriving DecidableEq, Repr

/-- `js_exec_result_t`. -/
inductive JsExecResult where
  | ok
  | error
  | timeout
  | outOfMemory
  | permissionDenied
  deriving DecidableEq, Repr

/-- `mjs_engine_execute`.  The two `xTaskGetTickCount` reads around the
evaluation are modelled by the `exec_time` oracle parameter (the measured
wall-clock duration of the evaluation).  The evaluation itself always runs to
completion; only afterwards is the result classified: execution error first
(via `mjs_is_error`), then post-hoc timeout, then OK. -/
def mjs_engine_execute (exec_time : Nat) (ctx : JsContext) : JsExecResult × JsContext :=
  match ctx.mjs, ctx.code with
  | some m, some code =>
    let r := mjs_exec m code
    let ctx' := { ctx with mjs := some r.1, is_running := false }
    if mjs_is_error r.2 then (.error, ctx')
    else if exec_time > ctx.execution_time_limit_ms then (.timeout, ctx')
    else (.ok, ctx')
  | _, _ => (.error, ctx)

/-- `mjs_engine_stop`: clears the running flag (no preemption). -/
def mjs_engine_stop (ctx : JsContext) : EspErr × JsContext :=
  (.espOk, { ctx with is_running := false })

/-! ## Filesystem model

Paths map to file contents; `mkdir` tracks created directories and fails iff
the directory already exists (the only failure mode exercised by the embedded
callers).  `fopen(_, "w")` always succeeds and truncates. -/

structure Fs where
  dirs : List String
  files : List (String × String)
  deriving DecidableEq, Repr

def findFile (fs : Fs) (path : String) : Option String :=
  (fs.files.find? (fun e => e.1 == path)).map (fun e => e.2)

def writeFile (fs : Fs) (path content : String) : Fs :=
  { fs with files := (path, content) :: fs.files }

def mkdirFs (fs : Fs) (path : String) : Option Fs :=
  if fs.dirs.contains path then none
  else some { fs with dirs := path :: fs.dirs }

/-! ## Engine context pool (mjs_engine.c statics)

Contexts are heap objects in the source; they are modelled as a store of
numbered handles (the handle plays the role of the `js_context_t *`).
`s_context_count` is the store size, capped at 8. -/

structure EngineState where
  contexts : List (Nat × JsContext)
  nextHandle : Nat
  deriving DecidableEq, Repr

def engineLookup (e : EngineState) (h : Nat) : Option JsContext :=
  (e.contexts.find? (fun p => p.1 == h)).map (fun p => p.2)

def engineUpdate (e : EngineState) (h : Nat) (ctx : JsContext) : EngineState :=
  { e with contexts := e.contexts.map (fun p => if p.1 == h then (p.1, ctx) else p) }

/-- `mjs_engine_create_context`: fails (NULL) when uninitialized or the
8-slot context table is full; otherwise allocates a fresh context with the
default limits (`memory_limit` 0 selects the default) and an empty mJS
instance.  `calloc`/`mjs_create` allocation failure is not modelled; the
error-handler installation is a no-op in the embedding (see `set_error`). -/
def mjs_engine_create_context (initialized : Bool) (memory_limit : Nat)
    (e : EngineState) : Option (Nat × EngineState) :=
  if !initialized then none
  else if e.contexts.length ≥ 8 then none
  else
    let ctx : JsContext := {
      mjs := some mjs_create, filename := none, code := none, is_running := false,
      memory_limit := if memory_limit > 0 then memory_limit else DEFAULT_MEMORY_LIMIT,
      execution_time_limit_ms := DEFAULT_EXEC_TIME_LIMIT }
    some (e.nextHandle,
      { contexts := e.contexts ++ [(e.nextHandle, ctx)], nextHandle := e.nextHandle + 1 })

/-- `mjs_engine_destroy_context`: no-op on a NULL/unknown handle or an
uninitialized engine; otherwise frees the context and its slot. -/
def mjs_engine_destroy_context (initialized : Bool) (h : Nat) (e : EngineState) :
    EngineState :=
  if !initialized then e
  else
    match engineLookup e h with
    | none => e
    | some _ => { e with contexts := e.contexts.filter (fun p => p.1 != h) }

/-- `mjs_engine_load_file`: open (NotFound on a missing file), reject empty
files and files larger than half the context's memory limit (InvalidSize),
else store the content and name in the context.  The callers in scope always
pass non-NULL arguments; the short-read branch cannot occur in the model. -/
def mjs_engine_load_file (ctx : JsContext) (fs : Fs) (filename : String) :
    Except EspErr JsContext :=
  match findFile fs filename with
  | none => .error .notFound
  | some content =>
    let file_size := content.length
    if file_size ≤ 0 || file_size > ctx.memory_limit / 2 then .error .invalidSize
    else .ok { ctx with filename := some filename, code := some content }

/-! ## Native API bridge (mjs_native_api.c, js_api/*.c) -/

/-- `mjs_engine_check_permission` (mjs_native_api.c): NULL checks, then
"For now, allow all permissions (simplified)" — every non-NULL request is
granted, regardless of the app's stored or cached permission bits. -/
def mjs_engine_check_permission (ctx : Option JsContext) (permission : Option String) :
    Bool :=
  match ctx, permission with
  | some _, some _ => true
  | _, _ => false

/-- `js_make_error` (js_api.c): builds the in-script error value — a plain
mJS string carrying the message. -/
def js_make_error (_ : Mjs) (message : String) : MjsVal := .str message

/-- The radio collaborator (`cc1101_transmit`), as the spec's spy/test
double: records each transmitted payload and reports success. -/
structure Cc1101Spy where
  transmits : List (List Nat)
  deriving DecidableEq, Repr

def cc1101_transmit (data : List Nat) (r : Cc1101Spy) : EspErr × Cc1101Spy :=
  (.espOk, { transmits := r.transmits ++ [data] })

/-- `js_rf_transmit` (js_rf_api.c): transmits a fixed test pattern through
the radio collaborator; returns an in-script error value only if the radio
itself fails, `undefined` otherwise.  No permission check appears anywhere on
this path. -/
def js_rf_transmit (m : Mjs) (r : Cc1101Spy) : MjsVal × Cc1101Spy :=
  let test_data : List Nat := [0x12, 0x34, 0x56, 0x78, 0xAB, 0xCD, 0xEF]
  let call := cc1101_transmit test_data r
  match call.1 with
  | .espOk => (MJS_UNDEFINED, call.2)
  | _ => (js_make_error m "Failed to transmit data", call.2)

/-- The function names bound by `js_rf_api_register`. -/
def rfApiNames : List String :=
  ["rf.setFrequency", "rf.getFrequency", "rf.setModulation", "rf.startReceive",
   "rf.stopReceive", "rf.transmit", "rf.readSignal", "rf.getRssi",
   "rf.isPresent", "rf.loadPreset"]

/-- The function names bound by `js_gpio_api_register`. -/
def gpioApiNames : List String := ["gpio.setup", "gpio.write", "gpio.read"]

/-- The function names bound by `js_ui_api_register`. -/
def uiApiNames : List String :=
  ["ui.createScreen", "ui.createButton", "ui.createLabel", "ui.showNotification"]

/-- The function names bound by `js_storage_api_register`. -/
def storageApiNames : List String :=
  ["storage.writeText", "storage.readText", "storage.setConfig",
   "storage.getConfig", "storage.deleteFile"]

/-- The function names bound by `js_notification_api_register`. -/
def notificationApiNames : List String :=
  ["notify.show", "notify.led", "notify.beep", "notify.vibrate", "notify.flash"]

/-- Common shape of the five `js_*_api_register` functions: NULL checks on
the context and its engine instance, then one `mjs_set_ffi_func` per name. -/
def registerApiNames (names : List String) (ctx : JsContext) :
    Except EspErr JsContext :=
  match ctx.mjs with
  | none => .error .invalidArg
  | some m => .ok { ctx with mjs := some (names.foldl mjs_set_ffi_func m) }

/-- `js_api_register_all` (js_api.c): rejects when the module layer is not
initialized, otherwise registers the RF, GPIO, UI, storage and notification
APIs in that order (each registration aborts the chain on error). -/
def js_api_register_all (apiInitialized : Bool) (ctx : JsContext) :
    Except EspErr JsContext :=
  if !apiInitialized then .error .invalidArg
  else do
    let c1 ← registerApiNames rfApiNames ctx
    let c2 ← registerApiNames gpioApiNames c1
    let c3 ← registerApiNames uiApiNames c2
    let c4 ← registerApiNames storageApiNames c3
    registerApiNames notificationApiNames c4

/-! ## Manifest parsing (mjs_native_api.c `mjs_engine_load_manifest`) -/

/-- `js_app_manifest_t`. -/
structure JsAppManifest where
  name : String
  version : String
  author : String
  description : String
  entry_point : String
  permissions : String
  memory_limit : Nat
  has_icon : Bool
  deriving DecidableEq, Repr

/-- `strstr`-style cut: the part before the first occurrence of `c` and the
part after it, or `none` when `c` does not occur. -/
def cutAtChar (cs : List Char) (c : Char) : Option (List Char × List Char) :=
  if cs.contains c then
    some (cs.takeWhile (fun x => x != c), (cs.dropWhile (fun x => x != c)).drop 1)
  else none

/-- `atoi` on a string whose first character is a digit: the value of the
leading digit run. -/
def atoiNat (cs : List Char) : Nat :=
  (cs.takeWhile isCDigit).foldl (fun acc c => acc * 10 + (c.toNat - '0'.toNat)) 0

/-- One iteration of the manifest-parsing loop: find the quoted key, the `:`,
then a quoted string value (assigned to the matching field, truncated to the
destination buffer size), a numeric value (only `memory_limit`), or a `true`
literal (only `has_icon`); malformed lines are skipped. -/
def parseManifestLine (man : JsAppManifest) (line : List Char) : JsAppManifest :=
  match cutAtChar line '"' with
  | none => man
  | some (_, afterQ1) =>
    match cutAtChar afterQ1 '"' with
    | none => man
    | some (keyChars, afterQ2) =>
      match cutAtChar afterQ2 ':' with
      | none => man
      | some (_, afterColon) =>
        let v := afterColon.dropWhile (fun c => c == ' ' || c == '\t')
        let key := String.mk keyChars
        match v with
        | [] => man
        | c :: vrest =>
          if c == '"' then
            match cutAtChar vrest '"' with
            | none => man
            | some (valChars, _) =>
              if key == "name" then { man with name := String.mk (valChars.take 31) }
              else if key == "version" then
                { man with version := String.mk (valChars.take 15) }
              else if key == "author" then
                { man with author := String.mk (valChars.take 31) }
              else if key == "description" then
                { man with description := String.mk (valChars.take 127) }
              else if key == "entry_point" then
                { man with entry_point := String.mk (valChars.take 63) }
              else if key == "permissions" then
                { man with permissions := String.mk (valChars.take 255) }
              else man
          else if isCDigit c then
            if key == "memory_limit" then { man with memory_limit := atoiNat v }
            else man
          else if ("true".toList).isPrefixOf v then
            if key == "has_icon" then { man with has_icon := true }
            else man
          else man

/-- The line loop plus the defaulting epilogue of `mjs_engine_load_manifest`.
`fgets` reads newline-terminated chunks of at most 255 characters; every
manifest this firmware writes keeps each line far below that, so lines are
split exactly at newlines here. -/
def parseManifestText (content : String) : JsAppManifest :=
  let lines := splitOnChar '\n' content.toList
  let man0 : JsAppManifest :=
    { name := "", version := "", author := "", description := "",
      entry_point := "", permissions := "", memory_limit := 0, has_icon := false }
  let man := lines.foldl parseManifestLine man0
  let man := if man.name == "" then { man with name := "Unknown App" } else man
  let man := if man.version == "" then { man with version := "1.0.0" } else man
  if man.memory_limit == 0 then { man with memory_limit := DEFAULT_MEMORY_LIMIT }
  else man

/-- `mjs_engine_load_manifest`: NULL checks, open (NotFound), then the
line-oriented parse with defaults. -/
def mjs_engine_load_manifest (manifest_path : Option String) (fs : Fs) :
    Except EspErr JsAppManifest :=
  match manifest_path with
  | none => .error .invalidArg
  | some path =>
    match findFile fs path with
    | none => .error .notFound
    | some content => .ok (parseManifestText content)

/-! ## App installer (app_installer.c) -/

/-- The manifest text `app_installer_extract_package` writes (its `fprintf`
sequence), byte for byte. -/
def manifestFileContent : String :=
  "\x7b\n  \"name\": \"Sample App\",\n  \"version\": \"1.0.0\",\n  \"author\": \"Unknown\",\n  \"entry_point\": \"index.js\",\n  \"permissions\": \"rf.receive,ui.create\"\n\x7d\n"

/-- `app_installer_extract_package`: create the extraction directory, copy
the package file's bytes into `<extract>/index.js`, then write the fixed
manifest.  The comment in the source says "Create basic manifest if not
exists", but `fopen(.., "w")` creates-or-truncates, so the fixed manifest is
written unconditionally.  State mutated before a failure (the created
directory) is kept, as in the source. -/
def app_installer_extract_package (package_path extract_path : Option String)
    (fs : Fs) : EspErr × Fs :=
  match package_path, extract_path with
  | some pkg, some ext =>
    (match mkdirFs fs ext with
     | none => (.espFail, fs)
     | some fs1 =>
       match findFile fs1 pkg with
       | none => (.notFound, fs1)
       | some content =>
         let fs2 := writeFile fs1 (ext ++ "/index.js") content
         let fs3 := writeFile fs2 (ext ++ "/manifest.json") manifestFileContent
         (.espOk, fs3))
  | _, _ => (.invalidArg, fs)

/-! ## Sandbox pool (app_sandbox.c) -/

/-- `sandbox_t`.  The `js_context` pointer is a context handle. -/
structure Sandbox where
  app_id : String
  js_context : Option Nat
  memory_limit : Nat
  time_limit : Nat
  start_time : Nat
  active : Bool
  deriving DecidableEq, Repr

/-- A zeroed pool slot (`memset(sandbox, 0, sizeof(sandbox_t))`). -/
def emptySandbox : Sandbox :=
  { app_id := "", js_context := none, memory_limit := 0, time_limit := 0,
    start_time := 0, active := false }

/-- `find_sandbox`: index of the first active slot with the given app id
(the source returns the slot pointer; the index is its analog). -/
def find_sandbox (app_id : String) (sandboxes : List Sandbox) : Option Nat :=
  sandboxes.findIdx? (fun s => s.active && s.app_id == app_id)

/-- `app_info_t`. -/
inductive AppState where
  | stopped
  | running
  | paused
  | error
  deriving DecidableEq, Repr

structure AppInfo where
  id : String
  name : String
  version : String
  author : String
  entry_point : String
  install_path : String
  state : AppState
  js_context : Option Nat
  memory_usage : Nat
  cpu_time : Nat
  is_system_app : Bool
  permissions : Nat
  deriving DecidableEq, Repr

/-- The mutable statics of app_manager.c, app_sandbox.c, mjs_engine.c and
the filesystem/collaborator surface, gathered into one state record.
`clock` is the `xTaskGetTickCount() * portTICK_PERIOD_MS` reading and
`execDuration` the wall-clock oracle consumed by the next
`mjs_engine_execute` (see there).  The registry mutex serializes every
operation, so each operation is a plain state transformer. -/
structure World where
  apps : List AppInfo
  current_app_id : String
  sandboxes : List Sandbox
  sandbox_count : Nat
  engine : EngineState
  engineInitialized : Bool
  jsApiInitialized : Bool
  fs : Fs
  clock : Nat
  execDuration : Nat
  deriving DecidableEq, Repr

/-- `app_sandbox_create`: NULL checks, find a free pool slot (NoMem when all
8 are active), create an engine context with the fixed 64 KB limit, register
the API catalogue into it, then activate the slot with the default limits
(`time_limit` 5000 ms) and the current tick as `start_time`.  On a
registration failure the created context is destroyed again, which restores
the engine pool (the model returns the untouched world). -/
def app_sandbox_create (app_id : Option String) (w : World) :
    Except EspErr (Nat × World) :=
  match app_id with
  | none => .error .invalidArg
  | some id =>
    match w.sandboxes.findIdx? (fun s => !s.active) with
    | none => .error .noMem
    | some slot =>
      match mjs_engine_create_context w.engineInitialized 65536 w.engine with
      | none => .error .noMem
      | some (h, e1) =>
        match engineLookup e1 h with
        | none => .error .noMem
        | some ctx =>
          match js_api_register_all w.jsApiInitialized ctx with
          | .error e => .error e
          | .ok ctx1 =>
            let sandbox : Sandbox :=
              { app_id := id, js_context := some h, memory_limit := 65536,
                time_limit := 5000, start_time := w.clock, active := true }
            .ok (h, { w with
              engine := engineUpdate e1 h ctx1,
              sandboxes := w.sandboxes.set slot sandbox,
              sandbox_count := w.sandbox_count + 1 })

/-- `app_sandbox_destroy`: NULL check; when no active slot matches, the
source logs "Sandbox not found" and returns ESP_ERR_NOT_FOUND with nothing
mutated; otherwise the slot's context is destroyed, the slot zeroed and the
count decremented. -/
def app_sandbox_destroy (app_id : Option String) (w : World) : EspErr × World :=
  match app_id with
  | none => (.invalidArg, w)
  | some id =>
    match find_sandbox id w.sandboxes with
    | none => (.notFound, w)
    | some i =>
      let s := (w.sandboxes[i]?).getD emptySandbox
      let e1 :=
        match s.js_context with
        | some h => mjs_engine_destroy_context w.engineInitialized h w.engine
        | none => w.engine
      (.espOk, { w with
        engine := e1,
        sandboxes := w.sandboxes.set i emptySandbox,
        sandbox_count := w.sandbox_count - 1 })

/-! ## App manager (app_manager.c) -/

/-- Update the registry entry with the given id in place (the source mutates
through an `app_info_t *` into the static array). -/
def updateApp (apps : List AppInfo) (id : String) (f : AppInfo → AppInfo) :
    List AppInfo :=
  apps.map (fun a => if a.id == id then f a else a)

/-- One lowercase hex digit (48 is `'0'`, 87 is `'a' - 10`). -/
def hexDigit (n : Nat) : Char :=
  Char.ofNat ((if n < 10 then 48 else 87) + n)

/-- `"%08x"` of a u32: eight lowercase hex digits. -/

def hex8 (n : Nat) : String :=
  String.mk ((List.range 8).map (fun i => hexDigit ((n >>> (4 * (7 - i))) % 16)))

/-- `app_manager_install`: NULL checks (the app-id out buffer is the middle
component of the result, `none` when the registry-full early return leaves it
unwritten), capacity check against `MAX_INSTALLED_APPS`, id generation from
`esp_random()` (the `rand` oracle), package extraction, manifest load, then
the new registry entry in state Stopped with the parsed manifest
permissions. -/
def app_manager_install (package_path : Option String) (rand : Nat) (w : World) :
    EspErr × Option String × World :=
  match package_path with
  | none => (.invalidArg, none, w)
  | some pkg =>
    if w.apps.length ≥ MAX_INSTALLED_APPS then (.noMem, none, w)
    else
      let id := "app_" ++ hex8 (rand % 2 ^ 32)
      let install_path := "/apps/" ++ id
      let ext := app_installer_extract_package (some pkg) (some install_path) w.fs
      match ext.1 with
      | .espOk =>
        let manifest_path := install_path ++ "/manifest.json"
        (match mjs_engine_load_manifest (some manifest_path) ext.2 with
         | .error e => (e, some id, { w with fs := ext.2 })
         | .ok man =>
           let app : AppInfo :=
             { id := id, name := man.name, version := man.version,
               author := man.author, entry_point := man.entry_point,
               install_path := install_path, state := .stopped,
               js_context := none, memory_usage := 0, cpu_time := 0,
               is_system_app := false,
               permissions := app_permissions_parse_string (some man.permissions) }
           (.espOk, some id, { w with fs := ext.2, apps := w.apps ++ [app] }))
      | e => (e, some id, { w with fs := ext.2 })

/-- `app_manager_start_app`: NULL check, registry lookup (NotFound), no-op
success when already Running; otherwise sandbox creation, entry-file load and
execution, tearing the sandbox down and clearing the context pointer on any
failure, else marking the app Running and making it current. -/
def app_manager_start_app (app_id : Option String) (w : World) : EspErr × World :=
  match app_id with
  | none => (.invalidArg, w)
  | some id =>
    match w.apps.find? (fun a => a.id == id) with
    | none => (.notFound, w)
    | some app =>
      if app.state = .running then (.espOk, w)
      else
        match app_sandbox_create (some id) w with
        | .error e => (e, w)
        | .ok (h, w1) =>
          let w2 := { w1 with
            apps := updateApp w1.apps id (fun a => { a with js_context := some h }) }
          let entry_file := app.install_path ++ "/" ++ app.entry_point
          match engineLookup w2.engine h with
          | none => (.espFail, w2)
          | some ctx =>
            match mjs_engine_load_file ctx w2.fs entry_file with
            | .error e =>
              let d := app_sandbox_destroy (some id) w2
              (e, { d.2 with
                apps := updateApp d.2.apps id (fun a => { a with js_context := none }) })
            | .ok ctx1 =>
              let w3 := { w2 with engine := engineUpdate w2.engine h ctx1 }
              let r := mjs_engine_execute w3.execDuration ctx1
              let w4 := { w3 with engine := engineUpdate w3.engine h r.2 }
              if r.1 ≠ .ok then
                let d := app_sandbox_destroy (some id) w4
                (.espFail, { d.2 with
                  apps := updateApp d.2.apps id (fun a => { a with js_context := none }) })
              else
                (.espOk, { w4 with
                  apps := updateApp w4.apps id (fun a => { a with state := .running }),
                  current_app_id := id })

/-- `app_manager_stop_app`: NULL check, lookup, no-op success when not
Running; otherwise stop the engine, destroy the sandbox, mark Stopped and
clear the current-app pointer iff it names this app. -/
def app_manager_stop_app (app_id : Option String) (w : World) : EspErr × World :=
  match app_id with
  | none => (.invalidArg, w)
  | some id =>
    match w.apps.find? (fun a => a.id == id) with
    | none => (.notFound, w)
    | some app =>
      if app.state ≠ .running then (.espOk, w)
      else
        let w1 :=
          match app.js_context with
          | some _ =>
            let d := app_sandbox_destroy (some id) w
            { d.2 with
              apps := updateApp d.2.apps id (fun a => { a with js_context := none }) }
          | none => w
        let w2 := { w1 with
          apps := updateApp w1.apps id (fun a => { a with state := .stopped }) }
        if w2.current_app_id == id then (.espOk, { w2 with current_app_id := "" })
        else (.espOk, w2)

/-- `app_manager_list_apps`: snapshot copy truncated to `max_apps` (the
returned list length is the `*num_apps` out-value). -/
def app_manager_list_apps (max_apps : Nat) (w : World) : List AppInfo :=
  w.apps.take max_apps

/-- `app_manager_check_permission`: registry-cached bitset, ANY-bit
intersection; false for NULL or unknown ids. -/
def app_manager_check_permission (app_id : Option String) (permission : Nat)
    (w : World) : Bool :=
  match app_id with
  | none => false
  | some id =>
    match w.apps.find? (fun a => a.id == id) with
    | some a => (a.permissions &&& permission) != 0
    | none => false

/-- `app_manager_get_current_app`. -/
def app_manager_get_current_app (w : World) : Option String :=
  if w.current_app_id == "" then none else some w.current_app_id

/-- Sandbox pool occupancy: the number of active slots. -/
def countActiveSandboxes (w : World) : Nat :=
  (w.sandboxes.filter (fun s => s.active)).length

/-! ## Spec-side definitions

These follow the specification's words, for comparison against the source
embeddings above. -/

/-- Spec, §8.1: "the recognized tokens of P" — the whitespace-trimmed
`strtok` tokens of the permission string. -/
def recognizedTokens (s : String) : List (List Char) :=
  (strtokCommas s.toList).map trimToken

/-- Spec, §8.1: "comma-joined list". -/
def commaJoin : List String → String
  | [] => ""
  | [n] => n
  | n :: rest => n ++ "," ++ commaJoin rest

/-- Spec, §8.1: the canonical comma-joined list containing exactly the
recognized permission names occurring in P, in the fixed table order, each at
most once. -/
def spec_canonical_permission_string (s : String) : String :=
  commaJoin ((permission_map.map Prod.fst).filter
    (fun n => (recognizedTokens s).contains n.toList))

/-- The tail-form of the comma join produced by `to_string_loop`'s
`first` flag (proof helper). -/
def joinTail : Bool → List String → String
  | _, [] => ""
  | true, n :: rest => n ++ joinTail false rest
  | false, n :: rest => "," ++ n ++ joinTail false rest

/-! ## Concrete test fixtures -/

/-- The registry entry every install produces (C4): the fields come from the
fabricated manifest, never from the package. -/
def installedSampleApp (rand : Nat) : AppInfo :=
  { id := "app_" ++ hex8 (rand % 2 ^ 32), name := "Sample App",
    version := "1.0.0", author := "Unknown", entry_point := "index.js",
    install_path := "/apps/" ++ ("app_" ++ hex8 (rand % 2 ^ 32)),
    state := .stopped, js_context := none, memory_usage := 0, cpu_time := 0,
    is_system_app := false, permissions := 65 }

/-- An empty post-init world holding one package file. -/
def installTestWorld (pkgPath content : String) : World :=
  { apps := [], current_app_id := "",
    sandboxes := List.replicate 8 emptySandbox, sandbox_count := 0,
    engine := { contexts := [], nextHandle := 0 },
    engineInitialized := true, jsApiInitialized := true,
    fs := { dirs := [], files := [(pkgPath, content)] },
    clock := 0, execDuration := 0 }

/-- A package whose manifest text declares the C4 scenario's fields
(name "Tester", version "0.1", entry_point "index.js",
permissions "gpio.read,rf.transmit"). -/
def testerManifestPkg : String :=
  "\x7b\n  \"name\": \"Tester\",\n  \"version\": \"0.1\",\n  \"entry_point\": \"index.js\",\n  \"permissions\": \"gpio.read,rf.transmit\"\n\x7d\n"

/-- A context with loaded code, for the execution witnesses. -/
def timeoutTestCtx : JsContext :=
  { mjs := some mjs_create, filename := some "string", code := some "var x = 1;",
    is_running := false, memory_limit := 65536,
    execution_time_limit_ms := DEFAULT_EXEC_TIME_LIMIT }

/-- A registry entry that is already Running, for the C7 witness. -/
def runningTesterApp : AppInfo :=
  { id := "app_00000001", name := "Tester", version := "0.1", author := "",
    entry_point := "index.js", install_path := "/apps/app_00000001",
    state := .running, js_context := some 0, memory_usage := 0, cpu_time := 0,
    is_system_app := false, permissions := 6 }

/-- A world with one Running app occupying one sandbox slot. -/
def runningTesterWorld : World :=
  { apps := [runningTesterApp], current_app_id := "app_00000001",
    sandboxes :=
      { app_id := "app_00000001", js_context := some 0, memory_limit := 65536,
        time_limit := 5000, start_time := 0, active := true }
        :: List.replicate 7 emptySandbox,
    sandbox_count := 1,
    engine := { contexts := [(0, timeoutTestCtx)], nextHandle := 1 },
    engineInitialized := true, jsApiInitialized := true,
    fs := { dirs := [], files := [] }, clock := 0, execDuration := 0 }

/-- A world whose registry is at capacity (16 entries), for the C8 witness. -/
def fullRegistryWorld : World :=
  { installTestWorld "/pkg/a" "x" with
    apps := List.replicate MAX_INSTALLED_APPS runningTesterApp }

/-- The C4 scenario's world: one installable package whose content is a
manifest text declaring the Tester fields. -/
def c4World : World := installTestWorld "/pkg/tester.app" testerManifestPkg

/-- The result of installing that package (generated id `app_00000000`). -/
def c4Install : EspErr × Option String × World :=
  app_manager_install (some "/pkg/tester.app") 0 c4World

/-! # Theorems -/

/-! ## Bitwise helper lemmas -/

theorem natOrAndDist (a b c : Nat) : (a ||| b) &&& c = (a &&& c) ||| (b &&& c) := by
  apply Nat.eq_of_testBit_eq
  intro i
  simp only [Nat.testBit_and, Nat.testBit_or]
  cases Nat.testBit a i <;> cases Nat.testBit b i <;> cases Nat.testBit c i <;> rfl

theorem natOrEqZeroIff (a b : Nat) : a ||| b = 0 ↔ a = 0 ∧ b = 0 := by
  constructor
  · intro h
    constructor <;>
      (apply Nat.eq_of_testBit_eq; intro i;
       have h2 := congrArg (Nat.testBit · i) h;
       simp only [Nat.testBit_or, Nat.zero_testBit, Bool.or_eq_false_iff] at h2;
       simp [h2.1, h2.2])
  · rintro ⟨rfl, rfl⟩; rfl

theorem natOrAndNeZero (a b c : Nat) :
    (a ||| b) &&& c ≠ 0 ↔ (a &&& c ≠ 0 ∨ b &&& c ≠ 0) := by
  rw [natOrAndDist]
  rw [Ne, natOrEqZeroIff]
  tauto

/-! ## C1 — rf.transmit permission gating -/

/-- C1: the claim is the spec's intent but not the code's behavior.  The
bridged `js_rf_transmit` carries no permission check at all: for every engine
state and every radio spy — in particular for an app holding zero permission
bits — it invokes the collaborator's transmit exactly once (the spy records
one more call) and yields `undefined`, not an in-script error value; and the
bridge-layer gate `mjs_engine_check_permission` grants every non-NULL
request unconditionally. -/
theorem rf_transmit_bypasses_permission_gate :
    (∀ ctx perm, mjs_engine_check_permission (some ctx) (some perm) = true) ∧
    (∀ m r, js_rf_transmit m r =
      (MJS_UNDEFINED,
       { transmits := r.transmits ++ [[0x12, 0x34, 0x56, 0x78, 0xAB, 0xCD, 0xEF]] })) := by
  exact ⟨fun _ _ => rfl, fun _ _ => rfl⟩

/-! ## C2 — post-hoc timeout classification -/

/-- C2: with an engine instance and loaded code present, when the measured
wall-clock duration exceeds the context's `execution_time_limit_ms` the
result of `mjs_engine_execute` is Timeout, and the evaluation has still run
to its natural completion: the final context holds exactly the engine state
produced by fully evaluating the loaded code (no preempted partial state). -/
theorem mjs_engine_execute_post_hoc_timeout (exec_time : Nat) (ctx : JsContext)
    (m : Mjs) (code : String) (hm : ctx.mjs = some m) (hc : ctx.code = some code)
    (ht : exec_time > ctx.execution_time_limit_ms) :
    (mjs_engine_execute exec_time ctx).1 = .timeout ∧
    (mjs_engine_execute exec_time ctx).2 =
      { ctx with mjs := some (mjs_exec m code).1, is_running := false } := by
  have herr : mjs_is_error (mjs_exec m code).2 = false := by
    simp [mjs_is_error]
  simp [mjs_engine_execute, hm, hc, herr, ht]

/-- Witness for C2 at a concrete context and duration. -/
theorem mjs_engine_execute_post_hoc_timeout_witness :
    (mjs_engine_execute 6000 timeoutTestCtx).1 = .timeout ∧
    (mjs_engine_execute 6000 timeoutTestCtx).2 =
      { timeoutTestCtx with
        mjs := some (mjs_exec mjs_create "var x = 1;").1, is_running := false } :=
  mjs_engine_execute_post_hoc_timeout 6000 timeoutTestCtx mjs_create "var x = 1;"
    rfl rfl (by decide)

/-! ## C3 — ANY-bit permission check -/

/-- C3: for every non-NULL app id and every required bitset, the Permission
Store's check succeeds iff the loaded bitset intersects the required bits
(ANY of them suffices, not all). -/
theorem app_permissions_check_any_of (id : String) (required : Nat) (nvs : Nvs) :
    ∃ v, app_permissions_load (some id) nvs = .ok v ∧
      (app_permissions_check (some id) required nvs = true ↔ v &&& required ≠ 0) := by
  cases h : nvsGet nvs id with
  | none =>
    exact ⟨0, by simp [app_permissions_load, h],
      by simp [app_permissions_check, app_permissions_load, h]⟩
  | some v =>
    exact ⟨v, by simp [app_permissions_load, h],
      by simp [app_permissions_check, app_permissions_load, h]⟩

/-! ## C10 — the Error outcome is unreachable -/

/-- C10: `mjs_is_error` is constantly false, so with a non-NULL engine
instance and loaded code `mjs_engine_execute` can only return OK or Timeout;
the JS_EXEC_ERROR outcome is unreachable under that precondition. -/
theorem mjs_engine_execute_never_error (exec_time : Nat) (ctx : JsContext)
    (m : Mjs) (code : String) (hm : ctx.mjs = some m) (hc : ctx.code = some code) :
    (∀ v, mjs_is_error v = false) ∧
    ((mjs_engine_execute exec_time ctx).1 = .ok ∨
     (mjs_engine_execute exec_time ctx).1 = .timeout) := by
  refine ⟨fun v => by simp [mjs_is_error], ?_⟩
  by_cases h : exec_time > ctx.execution_time_limit_ms
  · right; simp [mjs_engine_execute, hm, hc, mjs_is_error, h]
  · left; simp [mjs_engine_execute, hm, hc, mjs_is_error, h]

/-- Witness for C10 at a concrete context. -/
theorem mjs_engine_execute_never_error_witness :
    (∀ v, mjs_is_error v = false) ∧
    ((mjs_engine_execute 100 timeoutTestCtx).1 = .ok ∨
     (mjs_engine_execute 100 timeoutTestCtx).1 = .timeout) :=
  mjs_engine_execute_never_error 100 timeoutTestCtx mjs_create "var x = 1;" rfl rfl

/-! ## C7 — starting a Running app is a sandbox-preserving no-op -/

/-- C7: a second `start_app` on an app already Running returns success and
creates no new sandbox — the pool slots (hence the occupancy) are exactly
those from before the call. -/
theorem start_app_idempotent_when_running (id : String) (w : World) (app : AppInfo)
    (hfind : w.apps.find? (fun a => a.id == id) = some app)
    (hrun : app.state = .running) :
    (app_manager_start_app (some id) w).1 = .espOk ∧
    (app_manager_start_app (some id) w).2.sandboxes = w.sandboxes ∧
    countActiveSandboxes (app_manager_start_app (some id) w).2 =
      countActiveSandboxes w := by
  simp [app_manager_start_app, hfind, hrun]

/-- Witness for C7: a concrete world with one Running app. -/
theorem start_app_idempotent_when_running_witness :
    (app_manager_start_app (some "app_00000001") runningTesterWorld).1 = .espOk ∧
    (app_manager_start_app (some "app_00000001") runningTesterWorld).2.sandboxes =
      runningTesterWorld.sandboxes ∧
    countActiveSandboxes
        (app_manager_start_app (some "app_00000001") runningTesterWorld).2 =
      countActiveSandboxes runningTesterWorld :=
  start_app_idempotent_when_running "app_00000001" runningTesterWorld
    runningTesterApp (by decide) (by decide)

/-! ## C8 — install at registry capacity -/

/-- C8: when the registry already holds `MAX_INSTALLED_APPS` entries,
`install` fails with the no-capacity error (ESP_ERR_NO_MEM) before touching
anything: the registry afterwards is exactly the same list of entries. -/
theorem install_at_capacity_rejected (pkg : String) (rand : Nat) (w : World)
    (hfull : w.apps.length = MAX_INSTALLED_APPS) :
    (app_manager_install (some pkg) rand w).1 = .noMem ∧
    (app_manager_install (some pkg) rand w).2.2.apps = w.apps := by
  have h : w.apps.length ≥ MAX_INSTALLED_APPS := Nat.le_of_eq hfull.symm
  simp [app_manager_install, h]

/-- Witness for C8: a concrete registry with 16 entries. -/
theorem install_at_capacity_rejected_witness :
    (app_manager_install (some "/pkg/a") 7 fullRegistryWorld).1 = .noMem ∧
    (app_manager_install (some "/pkg/a") 7 fullRegistryWorld).2.2.apps =
      fullRegistryWorld.apps :=
  install_at_capacity_rejected "/pkg/a" 7 fullRegistryWorld (by decide)

/-! ## C9 — destroying a non-existent sandbox -/

/-- C9 counterexample: destroying a sandbox for an app with no active
sandbox does NOT succeed — it returns ESP_ERR_NOT_FOUND (the claim says the
call "succeeds"). -/
theorem sandbox_destroy_without_sandbox_not_ok :
    (app_sandbox_destroy (some "app_00000001") (installTestWorld "/pkg/a" "x")).1 =
      .notFound ∧
    (app_sandbox_destroy (some "app_00000001") (installTestWorld "/pkg/a" "x")).1 ≠
      .espOk := by
  decide

/-- C9 as amended: destroying with no active sandbox is a warning-logging
no-op that returns NotFound and leaves every sandbox pool slot (and the rest
of the state) unchanged. -/
theorem sandbox_destroy_without_sandbox_noop (id : String) (w : World)
    (hnone : find_sandbox id w.sandboxes = none) :
    (app_sandbox_destroy (some id) w).1 = .notFound ∧
    (app_sandbox_destroy (some id) w).2 = w := by
  simp [app_sandbox_destroy, hnone]

/-- Witness for the amended C9 at a concrete world. -/
theorem sandbox_destroy_without_sandbox_noop_witness :
    (app_sandbox_destroy (some "app_00000009") runningTesterWorld).1 = .notFound ∧
    (app_sandbox_destroy (some "app_00000009") runningTesterWorld).2 =
      runningTesterWorld :=
  sandbox_destroy_without_sandbox_noop "app_00000009" runningTesterWorld (by decide)

/-! ## C6 — grant/revoke algebra -/

theorem permBitIsPow2 (bit : Nat) (hbit : bit ∈ permission_map.map Prod.snd) :
    ∃ k, k < 32 ∧ bit = 2 ^ k := by
  fin_cases hbit
  · exact ⟨0, by norm_num, by decide⟩
  · exact ⟨1, by norm_num, by decide⟩
  · exact ⟨2, by norm_num, by decide⟩
  · exact ⟨3, by norm_num, by decide⟩
  · exact ⟨4, by norm_num, by decide⟩
  · exact ⟨5, by norm_num, by decide⟩
  · exact ⟨6, by norm_num, by decide⟩
  · exact ⟨7, by norm_num, by decide⟩
  · exact ⟨8, by norm_num, by decide⟩

theorem orPowAndPowNeZero (a k : Nat) : (a ||| 2 ^ k) &&& 2 ^ k ≠ 0 := by
  intro h
  have h2 := congrArg (Nat.testBit · k) h
  simp [Nat.testBit_and, Nat.testBit_or, Nat.testBit_two_pow_self,
    Nat.zero_testBit] at h2

theorem maskXorPowAndPow (k : Nat) (hk : k < 32) :
    (UINT32_MASK ^^^ 2 ^ k) &&& 2 ^ k = 0 := by
  apply Nat.eq_of_testBit_eq
  intro i
  simp only [Nat.testBit_and, Nat.testBit_xor, Nat.zero_testBit]
  rcases eq_or_ne i k with rfl | hne
  · have h1 : Nat.testBit UINT32_MASK i = true := by
      unfold UINT32_MASK
      rw [Nat.testBit_two_pow_sub_one]
      simp [hk]
    simp [h1, Nat.testBit_two_pow_self]
  · simp [Nat.testBit_two_pow, hne.symm]

theorem revokedBitCleared (a k : Nat) (hk : k < 32) :
    ((a ||| 2 ^ k) &&& (UINT32_MASK ^^^ 2 ^ k)) &&& 2 ^ k = 0 := by
  rw [Nat.and_assoc, maskXorPowAndPow k hk, Nat.and_zero]

theorem load_some_eq (id : String) (nvs : Nvs) :
    app_permissions_load (some id) nvs = .ok ((nvsGet nvs id).getD 0) := by
  cases h : nvsGet nvs id <;> simp [app_permissions_load, h]

theorem nvsGet_set_self (nvs : Nvs) (id : String) (v : Nat) :
    nvsGet (nvsSet nvs id v) id = some v := by
  simp [nvsGet, nvsSet, List.find?_cons]

/-- C6: for every app id and every single permission bit, granting the bit
then revoking it leaves the loaded bitset with that bit clear, and after the
grant alone the Permission Store's check of that bit succeeds. -/
theorem grant_revoke_single_bit (id : String) (bit : Nat) (nvs : Nvs)
    (hbit : bit ∈ permission_map.map Prod.snd) :
    ∃ nvs1 nvs2 v,
      app_permissions_grant (some id) bit nvs = .ok nvs1 ∧
      app_permissions_check (some id) bit nvs1 = true ∧
      app_permissions_revoke (some id) bit nvs1 = .ok nvs2 ∧
      app_permissions_load (some id) nvs2 = .ok v ∧
      v &&& bit = 0 := by
  obtain ⟨k, hk, rfl⟩ := permBitIsPow2 bit hbit
  set a0 := (nvsGet nvs id).getD 0 with ha0
  have hgrant : app_permissions_grant (some id) (2 ^ k) nvs =
      .ok (nvsSet nvs id (a0 ||| 2 ^ k)) := by
    simp [app_permissions_grant, load_some_eq, app_permissions_save, ha0]
  have hload1 : app_permissions_load (some id) (nvsSet nvs id (a0 ||| 2 ^ k)) =
      .ok (a0 ||| 2 ^ k) := by
    rw [load_some_eq, nvsGet_set_self]
    rfl
  have hcheck : app_permissions_check (some id) (2 ^ k)
      (nvsSet nvs id (a0 ||| 2 ^ k)) = true := by
    simp only [app_permissions_check, hload1]
    simp [orPowAndPowNeZero a0 k]
  have hrevoke : app_permissions_revoke (some id) (2 ^ k)
      (nvsSet nvs id (a0 ||| 2 ^ k)) =
      .ok (nvsSet (nvsSet nvs id (a0 ||| 2 ^ k)) id
        ((a0 ||| 2 ^ k) &&& (UINT32_MASK ^^^ 2 ^ k))) := by
    simp [app_permissions_revoke, hload1, app_permissions_save]
  refine ⟨_, _, (a0 ||| 2 ^ k) &&& (UINT32_MASK ^^^ 2 ^ k),
    hgrant, hcheck, hrevoke, ?_, revokedBitCleared a0 k hk⟩
  rw [load_some_eq, nvsGet_set_self]
  rfl

/-- Witness for C6 at a concrete id, bit and store. -/
theorem grant_revoke_single_bit_witness :
    ∃ nvs1 nvs2 v,
      app_permissions_grant (some "app_00000001") APP_PERM_RF_TRANSMIT [] = .ok nvs1 ∧
      app_permissions_check (some "app_00000001") APP_PERM_RF_TRANSMIT nvs1 = true ∧
      app_permissions_revoke (some "app_00000001") APP_PERM_RF_TRANSMIT nvs1 = .ok nvs2 ∧
      app_permissions_load (some "app_00000001") nvs2 = .ok v ∧
      v &&& APP_PERM_RF_TRANSMIT = 0 :=
  grant_revoke_single_bit "app_00000001" APP_PERM_RF_TRANSMIT [] (by decide)

/-! ## C5 — parse/to_string round trip -/

theorem toStringLoopSpec (t : List (String × Nat)) (x : Nat) (acc : String) (first : Bool) :
    to_string_loop t x acc first =
      acc ++ joinTail first ((t.filter (fun e => (x &&& e.2) != 0)).map Prod.fst) := by
  induction t generalizing acc first with
  | nil => simp [to_string_loop, joinTail]
  | cons e rest ih =>
    obtain ⟨n, f⟩ := e
    cases h : ((x &&& f) != 0) with
    | true =>
      simp only [to_string_loop, h, if_true, List.filter_cons, List.map_cons]
      rw [ih]
      cases first <;> simp [joinTail, String.append_assoc]
    | false =>
      simp only [to_string_loop, h, List.filter_cons]
      exact ih acc first

theorem joinTailFalseEq (l : List String) (n : String) :
    joinTail false (n :: l) = "," ++ joinTail true (n :: l) := by
  simp [joinTail, String.append_assoc]

theorem joinTailCommaJoin (l : List String) : joinTail true l = commaJoin l := by
  induction l with
  | nil => rfl
  | cons n rest ih =>
    cases rest with
    | nil => simp [joinTail, commaJoin]
    | cons m r2 =>
      have hcj : commaJoin (n :: m :: r2) = n ++ "," ++ commaJoin (m :: r2) := rfl
      rw [hcj, ← ih, joinTail, joinTailFalseEq]
      simp [String.append_assoc]

theorem foldlOrAndNe (toks : List (List Char)) (acc f : Nat) :
    ((toks.foldl (fun a tok => a ||| lookupFlag permission_map (trimToken tok)) acc) &&& f ≠ 0)
      ↔ (acc &&& f ≠ 0 ∨
         ∃ tok ∈ toks, lookupFlag permission_map (trimToken tok) &&& f ≠ 0) := by
  induction toks generalizing acc with
  | nil => simp
  | cons t ts ih =>
    simp only [List.foldl_cons]
    rw [ih, natOrAndNeZero]
    simp only [List.mem_cons]
    constructor
    · rintro (⟨h | h⟩ | ⟨tok, htok, h⟩)
      · exact Or.inl h
      · exact Or.inr ⟨t, Or.inl rfl, h⟩
      · exact Or.inr ⟨tok, Or.inr htok, h⟩
    · rintro (h | ⟨tok, (rfl | htok), h⟩)
      · exact Or.inl (Or.inl h)
      · exact Or.inl (Or.inr h)
      · exact Or.inr ⟨tok, htok, h⟩

set_option maxHeartbeats 3200000 in
theorem lookupFlagAndNe (tok : List Char) (n : String) (f : Nat)
    (hmem : (n, f) ∈ permission_map) :
    (lookupFlag permission_map tok &&& f ≠ 0) ↔ tok = n.toList := by
  simp only [permission_map, List.mem_cons, List.not_mem_nil, or_false,
    Prod.mk.injEq] at hmem
  rcases hmem with h | h | h | h | h | h | h | h | h <;> obtain ⟨rfl, rfl⟩ := h <;>
    (simp only [lookupFlag, permission_map, APP_PERM_RF_RECEIVE, APP_PERM_RF_TRANSMIT,
      APP_PERM_GPIO_READ, APP_PERM_GPIO_WRITE, APP_PERM_STORAGE_READ,
      APP_PERM_STORAGE_WRITE, APP_PERM_UI_CREATE, APP_PERM_NETWORK, APP_PERM_SYSTEM];
     split_ifs <;> simp_all <;> decide)

theorem parse_and_ne (s : String) (n : String) (f : Nat)
    (hmem : (n, f) ∈ permission_map) :
    (app_permissions_parse_string (some s) &&& f ≠ 0) ↔
      n.toList ∈ (recognizedTokens s) := by
  unfold app_permissions_parse_string recognizedTokens
  rw [foldlOrAndNe]
  simp only [Nat.zero_and, ne_eq, not_true_eq_false, false_or]
  constructor
  · rintro ⟨tok, htok, h⟩
    have heq := (lookupFlagAndNe (trimToken tok) n f hmem).mp h
    exact heq ▸ List.mem_map_of_mem trimToken htok
  · intro h
    obtain ⟨tok, htok, heq⟩ := List.mem_map.mp h
    exact ⟨tok, htok, (lookupFlagAndNe (trimToken tok) n f hmem).mpr heq⟩

theorem filterMapFst (q : String → Bool) (t : List (String × Nat))
    (p : (String × Nat) → Bool) (hpt : ∀ e ∈ t, p e = q e.1) :
    (t.filter p).map Prod.fst = (t.map Prod.fst).filter q := by
  induction t with
  | nil => rfl
  | cons e rest ih =>
    have he := hpt e (List.mem_cons_self e rest)
    have ihr := ih (fun e2 h2 => hpt e2 (List.mem_cons_of_mem e h2))
    cases h : p e with
    | true => simp [List.filter_cons, h, ← he, ihr]
    | false => simp [List.filter_cons, h, ← he, ihr]

/-- C5: for every permission string P, `to_string (parse P)` is the canonical
comma-joined list containing exactly the recognized permission names among
P's trimmed tokens, in the fixed table order, each at most once. -/
theorem parse_to_string_round_trip (s : String) :
    app_permissions_to_string (app_permissions_parse_string (some s)) =
      spec_canonical_permission_string s := by
  unfold app_permissions_to_string spec_canonical_permission_string
  rw [toStringLoopSpec, joinTailCommaJoin]
  have hempty : ("" : String) ++ commaJoin
      ((permission_map.filter
        (fun e => (app_permissions_parse_string (some s) &&& e.2) != 0)).map Prod.fst) =
      commaJoin ((permission_map.filter
        (fun e => (app_permissions_parse_string (some s) &&& e.2) != 0)).map Prod.fst) := by
    simp
  rw [hempty]
  congr 1
  apply filterMapFst
  intro e he
  have hiff := parse_and_ne s e.1 e.2 (by simpa using he)
  rw [Bool.eq_iff_iff]
  simpa using hiff

/-! ## C4 — install scenario -/

/-- C4 counterexample: installing a package whose manifest text declares
name "Tester", version "0.1", entry_point "index.js", permissions
"gpio.read,rf.transmit" succeeds, but the single resulting record carries the
fabricated manifest fields — name "Sample App" (not "Tester") — and
`check_permission(id, GPIO_READ)` is false, contrary to the claim. -/
theorem install_tester_package_counterexample :
    c4Install.1 = .espOk ∧
    c4Install.2.2.apps.map (fun a => (a.name, a.version, a.entry_point, a.state)) =
      [("Sample App", "1.0.0", "index.js", AppState.stopped)] ∧
    ("Sample App" : String) ≠ "Tester" ∧
    app_manager_check_permission (some "app_00000000") APP_PERM_GPIO_READ c4Install.2.2
      = false := by
  decide

theorem findFile_cons_self (d : List String) (fls : List (String × String)) (p c : String) :
    findFile ⟨d, (p, c) :: fls⟩ p = some c := by
  simp [findFile]

theorem parse_fixed_manifest :
    parseManifestText manifestFileContent =
      { name := "Sample App", version := "1.0.0", author := "Unknown",
        description := "", entry_point := "index.js",
        permissions := "rf.receive,ui.create", memory_limit := 65536,
        has_icon := false } := by
  decide

theorem parse_fixed_permissions :
    app_permissions_parse_string (some "rf.receive,ui.create") = 65 := by
  decide

/-- C4 as amended: after installing any package into a fresh world,
`list_apps` contains exactly one record for the app, carrying the fields of
the manifest fabricated by the extractor — name "Sample App", version
"1.0.0", entry_point "index.js" — with state Stopped;
`check_permission(id, GPIO_READ)` and `check_permission(id, GPIO_WRITE)` are
false and `check_permission(id, RF_RECEIVE)` is true. -/
theorem install_always_fabricates_sample_app (pkgPath content : String) (rand : Nat) :
    (app_manager_install (some pkgPath) rand (installTestWorld pkgPath content)).1
      = .espOk ∧
    (app_manager_install (some pkgPath) rand (installTestWorld pkgPath content)).2.2.apps
      = [installedSampleApp rand] ∧
    (installedSampleApp rand).name = "Sample App" ∧
    (installedSampleApp rand).version = "1.0.0" ∧
    (installedSampleApp rand).entry_point = "index.js" ∧
    (installedSampleApp rand).state = .stopped ∧
    app_manager_check_permission (some (installedSampleApp rand).id) APP_PERM_GPIO_READ
      (app_manager_install (some pkgPath) rand (installTestWorld pkgPath content)).2.2
      = false ∧
    app_manager_check_permission (some (installedSampleApp rand).id) APP_PERM_GPIO_WRITE
      (app_manager_install (some pkgPath) rand (installTestWorld pkgPath content)).2.2
      = false ∧
    app_manager_check_permission (some (installedSampleApp rand).id) APP_PERM_RF_RECEIVE
      (app_manager_install (some pkgPath) rand (installTestWorld pkgPath content)).2.2
      = true := by
  have hlen : ¬ ((installTestWorld pkgPath content).apps.length ≥ MAX_INSTALLED_APPS) := by
    simp [installTestWorld, MAX_INSTALLED_APPS]
  have hmkdir : mkdirFs (installTestWorld pkgPath content).fs
      ("/apps/" ++ ("app_" ++ hex8 (rand % 2 ^ 32))) =
      some ⟨["/apps/" ++ ("app_" ++ hex8 (rand % 2 ^ 32))], [(pkgPath, content)]⟩ := rfl
  have hfind1 : findFile ⟨["/apps/" ++ ("app_" ++ hex8 (rand % 2 ^ 32))],
      [(pkgPath, content)]⟩ pkgPath = some content := findFile_cons_self _ _ _ _
  have hinstall : app_manager_install (some pkgPath) rand (installTestWorld pkgPath content)
      = (.espOk, some ("app_" ++ hex8 (rand % 2 ^ 32)),
         { installTestWorld pkgPath content with
           fs := writeFile (writeFile
             ⟨["/apps/" ++ ("app_" ++ hex8 (rand % 2 ^ 32))], [(pkgPath, content)]⟩
             ("/apps/" ++ ("app_" ++ hex8 (rand % 2 ^ 32)) ++ "/index.js") content)
             ("/apps/" ++ ("app_" ++ hex8 (rand % 2 ^ 32)) ++ "/manifest.json")
             manifestFileContent,
           apps := [installedSampleApp rand] }) := by
    simp only [app_manager_install, hlen, if_false]
    simp only [app_installer_extract_package, hmkdir, hfind1]
    simp only [mjs_engine_load_manifest, writeFile, findFile_cons_self,
      parse_fixed_manifest, parse_fixed_permissions]
    simp [installedSampleApp, installTestWorld, parse_fixed_permissions]
  rw [hinstall]
  refine ⟨rfl, rfl, rfl, rfl, rfl, rfl, ?_, ?_, ?_⟩ <;>
    (simp [app_manager_check_permission, installedSampleApp, APP_PERM_GPIO_READ,
      APP_PERM_GPIO_WRITE, APP_PERM_RF_RECEIVE]; try decide)
